import Mathlib

/-!
Shallow embedding of `src/ReflectaFunctions/ReflectaFunctions.cpp`
(namespace `reflectaFunctions` of the Reflecta remote-function-invocation
engine), together with theorems settling the specification claims about it.

Machine integers are modelled as `Int`/`Nat` with explicit wrapping:
`toInt8` is the (two's-complement) conversion to `int8_t`, `toByte` the
conversion to `byte`.  The transport collaborator (`reflectaFrames`) is
modelled by ghost logs in the state: `sendError` appends to `errors`,
`sendFrame` appends to `sentFrames`.  Two further ghost logs, `reads`
(addresses of frame memory read) and `dispatched` (function ids dispatched
by the frame loop), instrument the embedding so that frame-bound safety and
dispatch order are statable; they never influence the computed data.
-/

namespace Reflecta

/-- Two's-complement wrap of an integer into the `int8_t` range [-128, 127],
modelling C's conversion to `int8_t`. -/
def toInt8 (n : Int) : Int := (n + 128) % 256 - 128

/-- Wrap of an integer into the `byte` range [0, 255], modelling C's
conversion to `byte` (`uint8_t`). -/
def toByte (n : Int) : Int := n % 256

/-- Two's-complement wrap into the `int16_t` range [-32768, 32767]. -/
def toInt16 (n : Int) : Int := (n + 32768) % 65536 - 32768

/-- Error codes reported through `reflectaFrames::sendError`.  Modelled from
the spec: the header `ReflectaFunctions.h` defining the numeric values of
the `FUNCTIONS_ERROR_*` constants is not under `src/`; the claims depend
only on their identity, so they are modelled as an enumeration. -/
inductive Err where
  | functionConflict
  | functionNotFound
  | stackOverflow
  | stackUnderflow
  | frameTooSmall
deriving DecidableEq

/-- The `FUNCTIONS_RESPONSE` frame tag byte.  Modelled from the spec: the
header fixing its numeric value is not under `src/`; the spec says only
that it is a fixed tag identifying function-response frames, and no claim
depends on its value, so an arbitrary byte value is used. -/
def FUNCTIONS_RESPONSE : Int := 91

/-- `const byte parameterStackMax = 128;` (line 102). -/
def parameterStackMax : Int := 128

/-- Execution-time state of the engine: the parameter stack
(`parameterStack` cells / `parameterStackTop`, lines 103-104), the
execution context (`execution` cursor and `frameTop`, lines 192-198,
both as offsets into the byte memory `mem` that holds the frame),
`callerSequence` (line 73), the interface registry as read by
`queryInterface` (parallel arrays `interfaceIds`/`interfaceStart`,
lines 28-32, as a list of (5-byte id, start) pairs), and the transport
ghost logs `errors`/`sentFrames` plus the instrumentation ghost logs
`reads`/`dispatched`. -/
structure EState where
  stackCells : Nat → Int
  stackTop : Int
  mem : Nat → Nat
  execution : Nat
  frameTop : Nat
  callerSequence : Nat
  interfaces : List (List Nat × Nat)
  errors : List Err
  sentFrames : List (List Int)
  reads : List Nat
  dispatched : List Nat

/-- `reflectaFrames::sendError` as seen by this layer: the code reported so
far, as a ghost log. -/
def sendError (e : Err) (s : EState) : EState :=
  { s with errors := s.errors ++ [e] }

/-- `reflectaFrames::sendFrame` as seen by this layer: the frames emitted so
far, as a ghost log. -/
def sendFrame (f : List Int) (s : EState) : EState :=
  { s with sentFrames := s.sentFrames ++ [f] }

/-- `void push(int8_t b)` (lines 106-116): overflow when
`parameterStackTop == parameterStackMax`, otherwise store at `++top`. -/
def push (b : Int) (s : EState) : EState :=
  if s.stackTop = parameterStackMax then
    sendError Err.stackOverflow s
  else
    { s with stackTop := s.stackTop + 1,
             stackCells := Function.update s.stackCells (s.stackTop + 1).toNat (toInt8 b) }

/-- `void push16(int16_t w)` (lines 118-129): overflow when
`parameterStackTop > parameterStackMax - 2`, otherwise store the high byte
`w >> 8` (arithmetic shift) then the low byte `w & 0xFF`, both converted to
`int8_t` by the array assignment. -/
def push16 (w : Int) (s : EState) : EState :=
  if s.stackTop > parameterStackMax - 2 then
    sendError Err.stackOverflow s
  else
    { s with stackTop := s.stackTop + 2,
             stackCells := Function.update
               (Function.update s.stackCells (s.stackTop + 1).toNat (toInt8 (Int.fdiv w 256)))
               (s.stackTop + 2).toNat (toInt8 w) }

/-- `int8_t pop()` (lines 131-142): underflow (top = -1) reports
`STACK_UNDERFLOW` and returns the sentinel -1 with the top unchanged,
otherwise return the cell at `top--`. -/
def pop (s : EState) : Int × EState :=
  if s.stackTop = -1 then
    (-1, sendError Err.stackUnderflow s)
  else
    (s.stackCells s.stackTop.toNat, { s with stackTop := s.stackTop - 1 })

/-- `int16_t pop16()` (lines 144-155): underflow when top is -1 or 0,
otherwise `parameterStack[top--] + (parameterStack[top--] << 8)` — the low
byte is popped first then the high byte (the left-to-right order described
by the spec; the C expression leaves the order unsequenced), and the `int`
sum is converted back to `int16_t` on return.  Both cells hold `int8_t`
values, so the low byte enters the sum sign-extended. -/
def pop16 (s : EState) : Int × EState :=
  if s.stackTop = -1 ∨ s.stackTop = 0 then
    (-1, sendError Err.stackUnderflow s)
  else
    (toInt16 (s.stackCells s.stackTop.toNat + s.stackCells (s.stackTop - 1).toNat * 256),
     { s with stackTop := s.stackTop - 2 })

/-- A sequence of consecutive `push` calls, first list element pushed
first. -/
def pushList (bs : List Int) (s : EState) : EState :=
  bs.foldl (fun a b => push b a) s

/-- `n` consecutive `pop` calls, returning the popped values in pop order
(the loop `for (int i = 0; i < count; i++) { int8_t value = pop(); ... }`
of `sendResponseCount`, lines 171-175). -/
def popN : Nat → EState → List Int × EState
  | 0, s => ([], s)
  | n + 1, s =>
    let p := pop s
    let q := popN n p.2
    (p.1 :: q.1, q.2)

/-- `void sendResponseCount()` (lines 161-178): pop the declared count (an
`int8_t`), build the buffer `[FUNCTIONS_RESPONSE, callerSequence, count]`
followed by `count` further popped bytes (none when the count is negative,
as in the C `for` loop), and send `size = 3 + count` bytes of it, the
`byte`-typed `size` wrapping modulo 256. -/
def sendResponseCount (s : EState) : EState :=
  let p := pop s
  let count := p.1
  let q := popN count.toNat p.2
  let buffer := FUNCTIONS_RESPONSE :: (q.2.callerSequence : Int) :: toByte count ::
    q.1.map toByte
  sendFrame (buffer.take (toByte (3 + count)).toNat) q.2

/-- `void queryInterface()` (lines 240-253): for each registered interface
in registration order, push its 5 id characters from index 4 down to index
0, then push its start id; finally push the payload count
`(5 + 1) * indexOfInterfaces` and call `sendResponseCount`.  The registry
is read from the state and is not modified by any of the pushes. -/
def queryInterface (s : EState) : EState :=
  let s1 := s.interfaces.foldl
    (fun a e =>
      push (e.2 : Int)
        ((List.range 5).reverse.foldl (fun a2 k => push (e.1.getD k 0 : Int) a2) a))
    s
  sendResponseCount (push ((6 * s.interfaces.length : Nat) : Int) s1)

/-- The second loop of `pushArray` (lines 213-221): `length` times advance
the execution pointer, and if it lands strictly past `frameTop`, report
`FRAME_TOO_SMALL` and break out of the loop. -/
def pushArrayAdvance : Nat → EState → EState
  | 0, s => s
  | n + 1, s =>
    let s1 := { s with execution := s.execution + 1 }
    if s1.frameTop < s1.execution then sendError Err.frameTooSmall s1
    else pushArrayAdvance n s1

/-- `void pushArray()` (lines 200-222): if the cursor already sits at
`frameTop`, report `FRAME_TOO_SMALL` (but do not abort); read the length
byte at the cursor and advance past it; push the `length` following bytes
in reverse order (`for (int i = length - 1; i > -1; i--)`), each converted
to `int8_t` by `push`; then advance the cursor `length` times, breaking
with `FRAME_TOO_SMALL` as soon as it exceeds `frameTop`.  Every frame
memory read is recorded in the ghost `reads` log. -/
def pushArray (s0 : EState) : EState :=
  let s1 := if s0.execution = s0.frameTop then sendError Err.frameTooSmall s0 else s0
  let len := s1.mem s1.execution
  let s2 := { s1 with execution := s1.execution + 1, reads := s1.reads ++ [s1.execution] }
  let base := s2.execution
  let s3 := (List.range len).reverse.foldl
    (fun a i => push (a.mem (base + i) : Int) { a with reads := a.reads ++ [base + i] })
    s2
  pushArrayAdvance len s3

/-- `void run(byte i)` (lines 90-100): look the id up in the vtable and
invoke the bound function, or report `FUNCTION_NOT_FOUND`.  The vtable
content is a parameter: the bound functions are arbitrary state
transformers, exactly as the C function pointers are arbitrary code. -/
def run (table : Nat → Option (EState → EState)) (i : Nat) (s : EState) : EState :=
  match table i with
  | some f => f s
  | none => sendError Err.functionNotFound s

/-- The dispatch loop of `frameReceived` (lines 232-234):
`while (execution != frameTop) run(*execution++);`, given explicit fuel
(the C loop is unbounded; `none` means the fuel ran out before the loop
exited).  Each dispatched id is recorded in the ghost `dispatched` log and
each opcode read in the ghost `reads` log. -/
def dispatchLoop (table : Nat → Option (EState → EState)) :
    Nat → EState → Option EState
  | 0, s => if s.execution = s.frameTop then some s else none
  | fuel + 1, s =>
    if s.execution = s.frameTop then some s
    else
      let op := s.mem s.execution
      let s1 := { s with execution := s.execution + 1,
                         reads := s.reads ++ [s.execution],
                         dispatched := s.dispatched ++ [op] }
      dispatchLoop table fuel (run table op s1)

/-- `void frameReceived(byte sequence, byte frameLength, byte* frame)`
(lines 226-235): install the execution pointer at the frame start (offset
0 of `mem`), record the caller sequence, set `frameTop` to the frame's
exclusive end, then run the dispatch loop. -/
def frameReceived (table : Nat → Option (EState → EState)) (fuel : Nat)
    (sequence frameLength : Nat) (s : EState) : Option EState :=
  dispatchLoop table fuel
    { s with execution := 0, callerSequence := sequence, frameTop := frameLength }

/-- Bind-time state of the function table and interface registry:
`openFunctionIndex` (line 11), the vtable (line 14) mapping a slot to the
opaque tag of the installed function pointer (or `none` for `NULL`), the
registry as parallel lists (`interfaceIds` / `interfaceStart`, with
`indexOfInterfaces` = their length), and the error ghost log. -/
structure FTState where
  openFunctionIndex : Nat
  vtable : Nat → Option Nat
  ifaceIds : List (List Nat)
  ifaceStart : List Nat
  errors : List Err

/-- `sendError` on the bind-time state. -/
def sendErrorFT (e : Err) (s : FTState) : FTState :=
  { s with errors := s.errors ++ [e] }

/-- `bool knownInterface(String interfaceId)` (lines 35-46): linear scan of
the registered interface ids. -/
def knownInterface (interfaceId : List Nat) (s : FTState) : Bool :=
  s.ifaceIds.contains interfaceId

/-- `byte bind(String interfaceId, void (*function)())` (lines 53-71): if
the interface id is unseen, append it to the registry with
`startIndex = openFunctionIndex`; if the target vtable slot is `NULL`,
install the function, otherwise report `FUNCTION_CONFLICT` and leave the
slot alone; return `openFunctionIndex++` (the old value; the `byte`
increment wraps modulo 256). -/
def bind (interfaceId : List Nat) (ftag : Nat) (s : FTState) : Nat × FTState :=
  let s1 :=
    if knownInterface interfaceId s then s
    else { s with ifaceIds := s.ifaceIds ++ [interfaceId],
                  ifaceStart := s.ifaceStart ++ [s.openFunctionIndex] }
  let s2 :=
    match s1.vtable s1.openFunctionIndex with
    | none => { s1 with vtable := Function.update s1.vtable s1.openFunctionIndex (some ftag) }
    | some _ => sendErrorFT Err.functionConflict s1
  (s2.openFunctionIndex, { s2 with openFunctionIndex := (s2.openFunctionIndex + 1) % 256 })

/-- A sequence of `bind` calls (return values discarded), first list
element bound first. -/
def bindList (binds : List (List Nat × Nat)) (s : FTState) : FTState :=
  binds.foldl (fun a e => (bind e.1 e.2 a).2) s

/-- The bind-time state right after `setup()` (lines 255-271): the vtable
zeroed and then slots 0-3 bound to the built-in primitives outside the
`bind` path (their tags are opaque; the slot ids 0-3 are modelled from the
spec, the header naming them being absent from `src/`), the registry
empty, `openFunctionIndex` at its initializer 4. -/
def initFT : FTState :=
  { openFunctionIndex := 4
    vtable := fun j => if j < 4 then some j else none
    ifaceIds := []
    ifaceStart := []
    errors := [] }

/-- An execution-time state with empty stack (top = -1), zeroed memory and
empty logs; concrete states for the claims are built from it by record
update. -/
def initES : EState :=
  { stackCells := fun _ => 0
    stackTop := -1
    mem := fun _ => 0
    execution := 0
    frameTop := 0
    callerSequence := 0
    interfaces := []
    errors := []
    sentFrames := []
    reads := []
    dispatched := [] }

/-- The abstract contents of the parameter stack, top first: the cells at
indices `stackTop`, `stackTop - 1`, ..., `0`. -/
def stackList (s : EState) : List Int :=
  (List.range (s.stackTop + 1).toNat).reverse.map s.stackCells

/-- The bytes `queryInterface` pushes for one registry entry: the five id
characters from index 4 down to index 0, then the start id. -/
def qiEntryBytes (e : List Nat × Nat) : List Int :=
  (List.range 5).reverse.map (fun k => (e.1.getD k 0 : Int)) ++ [(e.2 : Int)]

/-- All bytes `queryInterface` pushes for the registry, in push order. -/
def qiBytes (L : List (List Nat × Nat)) : List Int :=
  (L.map qiEntryBytes).flatten

/-- The payload `queryInterface` actually emits: the registry entries in
reverse registration order, each contributing its start id followed by its
five id characters in forward order (all reduced to bytes). -/
def qiPayload (L : List (List Nat × Nat)) : List Int :=
  (L.reverse.map (fun e =>
    ((e.2 : Int) % 256) :: (List.range 5).map (fun k => ((e.1.getD k 0 : Int)) % 256))).flatten

/-- Vtable entries that leave the execution context alone: each bound
function preserves the cursor, the frame bounds, the frame memory and the
bookkeeping fields (it may do anything to the stack, the error log and the
outbound frames). -/
def CursorFixing (table : Nat → Option (EState → EState)) : Prop :=
  ∀ i f, table i = some f → ∀ s : EState,
    (f s).execution = s.execution ∧ (f s).frameTop = s.frameTop ∧
    (f s).mem = s.mem ∧ (f s).dispatched = s.dispatched ∧
    (f s).callerSequence = s.callerSequence

/-- A vtable binding id 0 to a function that does nothing at all. -/
def idTable : Nat → Option (EState → EState) :=
  fun i => if i = 0 then some (fun st => st) else none

/-- A vtable binding id 0 to a function that rewinds the cursor to the
frame start — a legal use of the exposed mutable cursor that never
advances it past `frameTop`. -/
def rewindTable : Nat → Option (EState → EState) :=
  fun i => if i = 0 then some (fun st => { st with execution := 0 }) else none

/-- Execution state for `pushArray` over a 2-byte frame `[5, 1]`: the
length byte 5 exceeds the single byte remaining before `frameTop = 2`;
memory beyond the frame holds the recognisable filler byte 171. -/
def c1Frame : EState :=
  { initES with
    mem := fun a => if a = 0 then 5 else if a = 1 then 1 else 171
    frameTop := 2 }

/-- Execution state for `pushArray` over the 4-byte frame
`[3, 0x10, 0x20, 0x30]`. -/
def c8Frame : EState :=
  { initES with
    mem := fun a =>
      if a = 0 then 3 else if a = 1 then 16 else if a = 2 then 32 else
      if a = 3 then 48 else 0
    frameTop := 4 }

/-- Execution state whose registry holds exactly
`{"AAAA1": start=4}` then `{"BBBB1": start=6}` (ASCII: A = 65, B = 66,
1 = 49), with an empty parameter stack. -/
def c4State : EState :=
  { initES with interfaces := [([65, 65, 65, 65, 49], 4), ([66, 66, 66, 66, 49], 6)] }

/-- Bind-time state whose next free slot (4) is already occupied. -/
def ftOccupied : FTState :=
  { initFT with vtable := fun j => if j < 5 then some j else none }

theorem push_ok {s : EState} (h : s.stackTop ≠ parameterStackMax) (b : Int) :
    push b s = { s with
      stackTop := s.stackTop + 1
      stackCells := Function.update s.stackCells (s.stackTop + 1).toNat (toInt8 b) } :=
  if_neg h

theorem push_full {s : EState} (h : s.stackTop = parameterStackMax) (b : Int) :
    push b s = sendError Err.stackOverflow s :=
  if_pos h

theorem pop_ok {s : EState} (h : ¬s.stackTop = -1) :
    pop s = (s.stackCells s.stackTop.toNat, { s with stackTop := s.stackTop - 1 }) :=
  if_neg h

theorem push_execution (b : Int) (s : EState) : (push b s).execution = s.execution := by
  unfold push sendError; split <;> rfl

theorem push_frameTop (b : Int) (s : EState) : (push b s).frameTop = s.frameTop := by
  unfold push sendError; split <;> rfl

theorem push_mem (b : Int) (s : EState) : (push b s).mem = s.mem := by
  unfold push sendError; split <;> rfl

theorem push_callerSequence (b : Int) (s : EState) :
    (push b s).callerSequence = s.callerSequence := by
  unfold push sendError; split <;> rfl

theorem push_sentFrames (b : Int) (s : EState) : (push b s).sentFrames = s.sentFrames := by
  unfold push sendError; split <;> rfl

theorem push_interfaces (b : Int) (s : EState) : (push b s).interfaces = s.interfaces := by
  unfold push sendError; split <;> rfl

theorem pop_stackCells (s : EState) : (pop s).2.stackCells = s.stackCells := by
  unfold pop sendError; split <;> rfl

theorem pop_callerSequence (s : EState) : (pop s).2.callerSequence = s.callerSequence := by
  unfold pop sendError; split <;> rfl

theorem pop_sentFrames (s : EState) : (pop s).2.sentFrames = s.sentFrames := by
  unfold pop sendError; split <;> rfl

theorem pushList_cons (b : Int) (bs : List Int) (s : EState) :
    pushList (b :: bs) s = pushList bs (push b s) := rfl

theorem pushList_append (as bs : List Int) (s : EState) :
    pushList (as ++ bs) s = pushList bs (pushList as s) := by
  simp [pushList, List.foldl_append]

theorem pushList_stackTop_errors (bs : List Int) :
    ∀ s : EState, s.stackTop + bs.length ≤ 128 →
      (pushList bs s).stackTop = s.stackTop + bs.length ∧
      (pushList bs s).errors = s.errors := by
  induction bs with
  | nil => intro s _; simp [pushList]
  | cons b bs ih =>
    intro s h
    simp only [List.length_cons, Nat.cast_add, Nat.cast_one] at h ⊢
    have hne : s.stackTop ≠ parameterStackMax := by
      simp only [parameterStackMax]; omega
    rw [pushList_cons, push_ok hne]
    obtain ⟨h1, h2⟩ := ih { s with
        stackTop := s.stackTop + 1
        stackCells := Function.update s.stackCells (s.stackTop + 1).toNat (toInt8 b) }
      (by simp; omega)
    refine ⟨by rw [h1]; simp; ring, by rw [h2]⟩

/-- Claim C3, counterexample: pushing 129 bytes onto the initially empty
parameter stack signals no error at all — in particular no
`STACK_OVERFLOW` on the 129th push — and leaves the top index at 128: the
129-slot stack is exactly full and the overflow would only come on a 130th
push. -/
theorem c3_no_overflow_on_129th :
    (pushList (List.replicate 129 7) initES).errors = [] ∧
    (pushList (List.replicate 129 7) initES).stackTop = 128 := by
  obtain ⟨h1, h2⟩ := pushList_stackTop_errors (List.replicate 129 7) initES
    (by simp [initES])
  exact ⟨h2, by rw [h1]; simp [initES]⟩

/-- Claim C3, amended: starting from an empty parameter stack (top = -1)
with a clean error log, 130 consecutive pushes signal exactly one
`STACK_OVERFLOW`, occurring on the 130th push (the first 129 succeed
silently and fill slots 0..128), and that 130th call leaves the stack
contents and top index unchanged. -/
theorem c3_overflow_on_130th (bs : List Int) (b : Int) (s : EState)
    (hlen : bs.length = 129) (htop : s.stackTop = -1) (herr : s.errors = []) :
    (pushList bs s).stackTop = 128 ∧ (pushList bs s).errors = [] ∧
    (push b (pushList bs s)).errors = [Err.stackOverflow] ∧
    (push b (pushList bs s)).stackTop = (pushList bs s).stackTop ∧
    (push b (pushList bs s)).stackCells = (pushList bs s).stackCells := by
  obtain ⟨h1, h2⟩ := pushList_stackTop_errors bs s (by rw [hlen, htop]; norm_num)
  have htop1 : (pushList bs s).stackTop = 128 := by rw [h1, hlen, htop]; norm_num
  have herr1 : (pushList bs s).errors = [] := by rw [h2, herr]
  have hfull : (pushList bs s).stackTop = parameterStackMax := by
    rw [htop1]; rfl
  refine ⟨htop1, herr1, ?_, ?_, ?_⟩ <;> rw [push_full hfull b] <;>
    simp [sendError, herr1]

/-- Claim C3, amended, witness at a concrete input: 129 pushes of the byte
7 fill the stack silently and a 130th push of 9 overflows without mutating
it. -/
theorem c3_overflow_on_130th_witness :
    (pushList (List.replicate 129 7) initES).stackTop = 128 ∧
    (pushList (List.replicate 129 7) initES).errors = [] ∧
    (push 9 (pushList (List.replicate 129 7) initES)).errors = [Err.stackOverflow] ∧
    (push 9 (pushList (List.replicate 129 7) initES)).stackTop =
      (pushList (List.replicate 129 7) initES).stackTop ∧
    (push 9 (pushList (List.replicate 129 7) initES)).stackCells =
      (pushList (List.replicate 129 7) initES).stackCells :=
  c3_overflow_on_130th (List.replicate 129 7) 9 initES (by simp) rfl rfl

/-- Claim C2, code bug: `push16(255)` immediately followed by `pop16()`
starting from the empty stack (at least two free slots) returns -1, not
255.  `pop16` reassembles the value as `low + (high << 8)` with the low
byte sign-extended from `int8_t`, so every value whose low byte is at
least 0x80 round-trips to a different value. -/
theorem c2_pop16_push16_sign_extension_bug :
    (pop16 (push16 255 initES)).1 = -1 ∧ ((-1 : Int) ≠ 255) := by decide

/-- Claim C9: `pop()` on an empty stack (top = -1) signals exactly one
`STACK_UNDERFLOW`, returns the sentinel -1 and leaves the top index at -1;
`pop16()` with fewer than two stored values (top = -1 or 0) signals
exactly one `STACK_UNDERFLOW`, returns the sentinel -1 and leaves the top
index unchanged. -/
theorem c9_pop_pop16_underflow (s t : EState) (hs : s.stackTop = -1)
    (ht : t.stackTop = -1 ∨ t.stackTop = 0) :
    (pop s).1 = -1 ∧ (pop s).2.errors = s.errors ++ [Err.stackUnderflow] ∧
    (pop s).2.stackTop = -1 ∧
    (pop16 t).1 = -1 ∧ (pop16 t).2.errors = t.errors ++ [Err.stackUnderflow] ∧
    (pop16 t).2.stackTop = t.stackTop := by
  unfold pop pop16
  rw [if_pos hs, if_pos ht]
  simp [sendError, hs]

/-- Claim C9, witness at concrete inputs: the empty initial state for
`pop`, and a one-entry stack (top = 0) for `pop16`. -/
theorem c9_pop_pop16_underflow_witness :
    (pop initES).1 = -1 ∧
    (pop initES).2.errors = initES.errors ++ [Err.stackUnderflow] ∧
    (pop initES).2.stackTop = -1 ∧
    (pop16 { initES with stackTop := 0 }).1 = -1 ∧
    (pop16 { initES with stackTop := 0 }).2.errors =
      { initES with stackTop := 0 }.errors ++ [Err.stackUnderflow] ∧
    (pop16 { initES with stackTop := 0 }).2.stackTop =
      { initES with stackTop := 0 }.stackTop :=
  c9_pop_pop16_underflow initES { initES with stackTop := 0 } rfl (Or.inr rfl)

theorem bind_of_conflict {s : FTState} {iid : List Nat} {ftag g : Nat}
    (hocc : s.vtable s.openFunctionIndex = some g) :
    bind iid ftag s =
      (s.openFunctionIndex,
        { s with
          ifaceIds := if knownInterface iid s then s.ifaceIds else s.ifaceIds ++ [iid]
          ifaceStart := if knownInterface iid s then s.ifaceStart
            else s.ifaceStart ++ [s.openFunctionIndex]
          errors := s.errors ++ [Err.functionConflict]
          openFunctionIndex := (s.openFunctionIndex + 1) % 256 }) := by
  by_cases hk : knownInterface iid s <;>
    simp [bind, hk, hocc, sendErrorFT]

/-- Claim C5: when `bind` is called and the vtable slot at the current
`openFunctionIndex` is already occupied, exactly one `FUNCTION_CONFLICT`
is signaled, the previously installed function stays in the slot (the new
function is not installed), the allocated id is still returned, and
`openFunctionIndex` still advances by one. -/
theorem c5_bind_conflict (s : FTState) (iid : List Nat) (ftag g : Nat)
    (hocc : s.vtable s.openFunctionIndex = some g)
    (hlt : s.openFunctionIndex < 255) :
    (bind iid ftag s).1 = s.openFunctionIndex ∧
    (bind iid ftag s).2.vtable s.openFunctionIndex = some g ∧
    (bind iid ftag s).2.errors = s.errors ++ [Err.functionConflict] ∧
    (bind iid ftag s).2.openFunctionIndex = s.openFunctionIndex + 1 := by
  rw [bind_of_conflict hocc]
  refine ⟨rfl, hocc, rfl, ?_⟩
  show (s.openFunctionIndex + 1) % 256 = s.openFunctionIndex + 1
  omega

/-- Claim C5, witness: binding into a table whose next free slot 4 already
holds a function (tag 4) conflicts and keeps the old entry. -/
theorem c5_bind_conflict_witness :
    (bind [1, 2, 3, 4, 5] 77 ftOccupied).1 = ftOccupied.openFunctionIndex ∧
    (bind [1, 2, 3, 4, 5] 77 ftOccupied).2.vtable ftOccupied.openFunctionIndex = some 4 ∧
    (bind [1, 2, 3, 4, 5] 77 ftOccupied).2.errors =
      ftOccupied.errors ++ [Err.functionConflict] ∧
    (bind [1, 2, 3, 4, 5] 77 ftOccupied).2.openFunctionIndex =
      ftOccupied.openFunctionIndex + 1 :=
  c5_bind_conflict ftOccupied [1, 2, 3, 4, 5] 77 4 (by decide) (by decide)

/-- Claim C10: when `bind` is called with a previously-unseen interface id
and the target slot is already occupied, the new interface entry (the id,
with start index equal to the conflicting slot) is appended to the
registry anyway — the registration precedes the conflict check and is not
rolled back — while `FUNCTION_CONFLICT` is signaled and the old function
stays bound to that start id. -/
theorem c10_conflict_still_registers (s : FTState) (iid : List Nat) (ftag g : Nat)
    (hnew : knownInterface iid s = false)
    (hocc : s.vtable s.openFunctionIndex = some g) :
    (bind iid ftag s).2.ifaceIds = s.ifaceIds ++ [iid] ∧
    (bind iid ftag s).2.ifaceStart = s.ifaceStart ++ [s.openFunctionIndex] ∧
    (bind iid ftag s).2.errors = s.errors ++ [Err.functionConflict] ∧
    (bind iid ftag s).2.vtable s.openFunctionIndex = some g ∧
    (bind iid ftag s).1 = s.openFunctionIndex := by
  rw [bind_of_conflict hocc, hnew]
  exact ⟨rfl, rfl, rfl, hocc, rfl⟩

/-- Claim C10, witness: binding the fresh interface id `[1,2,3,4,5]` into
the occupied-slot table registers the interface at start index 4 even
though the bind itself conflicts. -/
theorem c10_conflict_still_registers_witness :
    (bind [1, 2, 3, 4, 5] 77 ftOccupied).2.ifaceIds =
      ftOccupied.ifaceIds ++ [[1, 2, 3, 4, 5]] ∧
    (bind [1, 2, 3, 4, 5] 77 ftOccupied).2.ifaceStart =
      ftOccupied.ifaceStart ++ [ftOccupied.openFunctionIndex] ∧
    (bind [1, 2, 3, 4, 5] 77 ftOccupied).2.errors =
      ftOccupied.errors ++ [Err.functionConflict] ∧
    (bind [1, 2, 3, 4, 5] 77 ftOccupied).2.vtable ftOccupied.openFunctionIndex = some 4 ∧
    (bind [1, 2, 3, 4, 5] 77 ftOccupied).1 = ftOccupied.openFunctionIndex :=
  c10_conflict_still_registers ftOccupied [1, 2, 3, 4, 5] 77 4 (by decide) (by decide)

theorem bind_openFunctionIndex (iid : List Nat) (ftag : Nat) (s : FTState) :
    (bind iid ftag s).2.openFunctionIndex = (s.openFunctionIndex + 1) % 256 := by
  by_cases hk : knownInterface iid s <;>
    cases hv : s.vtable s.openFunctionIndex <;>
      simp [bind, hk, hv, sendErrorFT]

theorem bind_ifaceIds (iid : List Nat) (ftag : Nat) (s : FTState) :
    (bind iid ftag s).2.ifaceIds =
      if s.ifaceIds.contains iid then s.ifaceIds else s.ifaceIds ++ [iid] := by
  by_cases hk : knownInterface iid s <;>
    cases hv : s.vtable s.openFunctionIndex <;>
      simp [knownInterface] at hk <;>
      simp [bind, knownInterface, hk, hv, sendErrorFT]

theorem bindList_openFunctionIndex (l : List (List Nat × Nat)) :
    ∀ s : FTState, s.openFunctionIndex < 256 →
      (bindList l s).openFunctionIndex = (s.openFunctionIndex + l.length) % 256 := by
  induction l with
  | nil => intro s h; simp [bindList]; omega
  | cons e l ih =>
    intro s h
    have step : bindList (e :: l) s = bindList l (bind e.1 e.2 s).2 := rfl
    rw [step, ih _ (by rw [bind_openFunctionIndex]; omega), bind_openFunctionIndex]
    simp only [List.length_cons]
    omega

theorem bindList_ifaceIds (l : List (List Nat × Nat)) :
    ∀ s : FTState,
      (bindList l s).ifaceIds =
        l.foldl (fun acc e => if acc.contains e.1 then acc else acc ++ [e.1])
          s.ifaceIds := by
  induction l with
  | nil => intro s; rfl
  | cons e l ih =>
    intro s
    have step : bindList (e :: l) s = bindList l (bind e.1 e.2 s).2 := rfl
    rw [step, ih, List.foldl_cons, bind_ifaceIds]

theorem foldl_insert_toFinset (l : List (List Nat)) :
    ∀ acc : List (List Nat),
      (l.foldl (fun acc x => if acc.contains x then acc else acc ++ [x]) acc).toFinset =
        acc.toFinset ∪ l.toFinset := by
  induction l with
  | nil => intro acc; simp
  | cons x l ih =>
    intro acc
    rw [List.foldl_cons, ih]
    by_cases hx : x ∈ acc
    · rw [if_pos (List.elem_iff.mpr hx)]
      ext y
      simp only [Finset.mem_union, List.mem_toFinset, List.mem_cons]
      constructor
      · tauto
      · rintro (h | h2)
        · exact Or.inl h
        rcases h2 with h3 | h3
        · exact Or.inl (h3 ▸ hx)
        · exact Or.inr h3
    · rw [if_neg (fun hc => hx (List.elem_iff.mp hc))]
      ext y
      simp only [Finset.mem_union, List.mem_toFinset, List.mem_append, List.mem_cons,
        List.mem_singleton]
      tauto

theorem foldl_insert_nodup (l : List (List Nat)) :
    ∀ acc : List (List Nat), acc.Nodup →
      (l.foldl (fun acc x => if acc.contains x then acc else acc ++ [x]) acc).Nodup := by
  induction l with
  | nil => intro acc h; exact h
  | cons x l ih =>
    intro acc h
    rw [List.foldl_cons]
    by_cases hx : acc.contains x
    · rw [if_pos hx]; exact ih acc h
    · rw [if_neg hx]
      refine ih _ ?_
      have hx2 : x ∉ acc := fun hm => hx (List.elem_iff.mpr hm)
      simp [List.nodup_append, h, hx2]

/-- Claim C6: starting from the post-`setup` state, after any sequence of
N `bind` calls `openFunctionIndex` equals 4 + N and the number of
registered interfaces equals the number of distinct interface ids used
across the binds.  The hypotheses keep the run inside the code's own
preconditions: at most 251 binds (ids 4..254 of the 255-entry vtable, no
`byte` wrap of `openFunctionIndex`) and at most 25 distinct interfaces
(the registry capacity, an unchecked precondition per the spec). -/
theorem c6_bind_counts (l : List (List Nat × Nat))
    (hn : l.length ≤ 251) (_hifc : (l.map Prod.fst).toFinset.card ≤ 25) :
    (bindList l initFT).openFunctionIndex = 4 + l.length ∧
    (bindList l initFT).ifaceIds.length = (l.map Prod.fst).toFinset.card := by
  constructor
  · rw [bindList_openFunctionIndex l initFT (by decide)]
    show (4 + l.length) % 256 = 4 + l.length
    omega
  · rw [bindList_ifaceIds l initFT]
    show (l.foldl (fun acc e => if acc.contains e.1 then acc else acc ++ [e.1])
      initFT.ifaceIds).length = _
    have hfold : l.foldl (fun acc e => if acc.contains e.1 then acc else acc ++ [e.1])
        initFT.ifaceIds =
        (l.map Prod.fst).foldl (fun acc x => if acc.contains x then acc else acc ++ [x])
          ([] : List (List Nat)) := by
      rw [List.foldl_map]; rfl
    rw [hfold]
    have hnd := foldl_insert_nodup (l.map Prod.fst) [] (by simp)
    have hfin := foldl_insert_toFinset (l.map Prod.fst) []
    rw [← List.toFinset_card_of_nodup hnd, hfin]
    simp

/-- Claim C6, witness: three binds, two of them sharing an interface id,
leave `openFunctionIndex` at 7 and exactly two registered interfaces. -/
theorem c6_bind_counts_witness :
    (bindList [([65, 65, 65, 65, 49], 10), ([66, 66, 66, 66, 49], 11),
      ([65, 65, 65, 65, 49], 12)] initFT).openFunctionIndex =
      4 + [([65, 65, 65, 65, 49], 10), ([66, 66, 66, 66, 49], 11),
        ([65, 65, 65, 65, 49], 12)].length ∧
    (bindList [([65, 65, 65, 65, 49], 10), ([66, 66, 66, 66, 49], 11),
      ([65, 65, 65, 65, 49], 12)] initFT).ifaceIds.length =
      ([([65, 65, 65, 65, 49], 10), ([66, 66, 66, 66, 49], 11),
        ([65, 65, 65, 65, 49], 12)].map Prod.fst).toFinset.card :=
  c6_bind_counts _ (by decide) (by decide)

theorem push_reads (b : Int) (s : EState) : (push b s).reads = s.reads := by
  unfold push sendError; split <;> rfl

theorem push_stackTop {s : EState} (h : s.stackTop ≠ parameterStackMax) (b : Int) :
    (push b s).stackTop = s.stackTop + 1 := by
  rw [push_ok h]

theorem push_errors {s : EState} (h : s.stackTop ≠ parameterStackMax) (b : Int) :
    (push b s).errors = s.errors := by
  rw [push_ok h]

theorem push_reads_comm (b : Int) (x : EState) (r : List Nat) :
    { push b x with reads := r } = push b { x with reads := r } := by
  unfold push sendError
  by_cases h : x.stackTop = parameterStackMax <;> simp [h]

theorem pushList_execution (bs : List Int) :
    ∀ s : EState, (pushList bs s).execution = s.execution := by
  induction bs with
  | nil => intro s; rfl
  | cons b bs ih => intro s; rw [pushList_cons, ih, push_execution]

theorem pushList_frameTop (bs : List Int) :
    ∀ s : EState, (pushList bs s).frameTop = s.frameTop := by
  induction bs with
  | nil => intro s; rfl
  | cons b bs ih => intro s; rw [pushList_cons, ih, push_frameTop]

theorem pushList_callerSequence (bs : List Int) :
    ∀ s : EState, (pushList bs s).callerSequence = s.callerSequence := by
  induction bs with
  | nil => intro s; rfl
  | cons b bs ih => intro s; rw [pushList_cons, ih, push_callerSequence]

theorem pushList_sentFrames (bs : List Int) :
    ∀ s : EState, (pushList bs s).sentFrames = s.sentFrames := by
  induction bs with
  | nil => intro s; rfl
  | cons b bs ih => intro s; rw [pushList_cons, ih, push_sentFrames]

theorem stackList_push (b : Int) (s : EState) (h : s.stackTop ≠ parameterStackMax)
    (h2 : -1 ≤ s.stackTop) :
    stackList (push b s) = toInt8 b :: stackList s := by
  have hn : (s.stackTop + 1 + 1).toNat = (s.stackTop + 1).toNat + 1 := by omega
  simp only [stackList, push_ok h]
  rw [hn, List.range_succ, List.reverse_append, List.reverse_singleton,
    List.singleton_append, List.map_cons, Function.update_same]
  congr 1
  apply List.map_congr_left
  intro j hj
  have hjlt : j < (s.stackTop + 1).toNat := by
    simpa [List.mem_reverse, List.mem_range] using hj
  exact Function.update_noteq (by omega) _ _

theorem stackList_pushList (bs : List Int) :
    ∀ s : EState, -1 ≤ s.stackTop → s.stackTop + bs.length ≤ 128 →
      stackList (pushList bs s) = (bs.map toInt8).reverse ++ stackList s ∧
      (pushList bs s).stackTop = s.stackTop + bs.length ∧
      (pushList bs s).errors = s.errors := by
  induction bs with
  | nil => intro s _ _; simp [pushList]
  | cons b bs ih =>
    intro s h1 h2
    simp only [List.length_cons, Nat.cast_add, Nat.cast_one] at h2 ⊢
    have hne : s.stackTop ≠ parameterStackMax := by
      simp only [parameterStackMax]; omega
    obtain ⟨ia, ib, ic⟩ := ih (push b s)
      (by rw [push_stackTop hne]; omega)
      (by rw [push_stackTop hne]; push_cast; omega)
    rw [pushList_cons]
    refine ⟨?_, ?_, ?_⟩
    · rw [ia, stackList_push b s hne h1]
      simp
    · rw [ib, push_stackTop hne]; push_cast; ring
    · rw [ic, push_errors hne]

theorem data_foldl_eq (base : Nat) (idxs : List Nat) :
    ∀ a : EState,
      idxs.foldl
        (fun a i => push (a.mem (base + i) : Int) { a with reads := a.reads ++ [base + i] })
        a =
      pushList (idxs.map (fun i => (a.mem (base + i) : Int)))
        { a with reads := a.reads ++ idxs.map (fun i => base + i) } := by
  induction idxs with
  | nil => intro a; simp [pushList]
  | cons i idxs ih =>
    intro a
    rw [List.foldl_cons, ih, push_reads_comm]
    have hmem : (push (a.mem (base + i) : Int)
        { a with reads := a.reads ++ [base + i] }).mem = a.mem := by
      rw [push_mem]
    have hreads : (push (a.mem (base + i) : Int)
        { a with reads := a.reads ++ [base + i] }).reads = a.reads ++ [base + i] := by
      rw [push_reads]
    simp only [hmem, hreads]
    simp [pushList_cons, List.append_assoc]

theorem pushArrayAdvance_ok (n : Nat) :
    ∀ s : EState, s.execution + n ≤ s.frameTop →
      pushArrayAdvance n s = { s with execution := s.execution + n } := by
  induction n with
  | zero => intro s _; rfl
  | succ n ih =>
    intro s h
    show (if s.frameTop < s.execution + 1 then _ else _) = _
    rw [if_neg (by omega), ih { s with execution := s.execution + 1 }
      (by show s.execution + 1 + n ≤ s.frameTop; omega)]
    show ({ s with execution := s.execution + 1 + n } : EState) =
      { s with execution := s.execution + (n + 1) }
    rw [show s.execution + 1 + n = s.execution + (n + 1) from by omega]

/-- Claim C1, code bug: invoking `pushArray` with the cursor at offset 0 of
the 2-byte frame `[5, 1]` (length byte 5, one byte remaining) reads the
frame memory at addresses 0, 5, 4, 3, 2, 1 — the addresses 2..5 lie at or
beyond `frameEnd` = 2 — pushes the out-of-frame filler byte onto the
stack, and leaves the cursor at `frameEnd` + 1, signaling
`FRAME_TOO_SMALL` only after the out-of-bounds reads instead of halting
consumption before them. -/
theorem c1_pushArray_reads_past_frame_end :
    (pushArray c1Frame).reads = [0, 5, 4, 3, 2, 1] ∧
    (∃ a ∈ (pushArray c1Frame).reads, c1Frame.frameTop ≤ a) ∧
    (pushArray c1Frame).errors = [Err.frameTooSmall] ∧
    (pushArray c1Frame).execution = 3 ∧
    c1Frame.frameTop = 2 ∧
    (pushArray c1Frame).stackCells 0 = -85 := by decide

/-- Claim C8: `pushArray` invoked with the cursor on the frame bytes
`[3, 0x10, 0x20, 0x30]` — all four bytes inside the frame and at least
three free stack slots — leaves the parameter stack, read top to bottom,
as 0x10, 0x20, 0x30 on top of its previous contents, advances the cursor
by 4, raises the top index by 3, and signals no error. -/
theorem c8_pushArray_concrete (s : EState)
    (hm0 : s.mem s.execution = 3) (hm1 : s.mem (s.execution + 1) = 16)
    (hm2 : s.mem (s.execution + 2) = 32) (hm3 : s.mem (s.execution + 3) = 48)
    (hin : s.execution + 4 ≤ s.frameTop)
    (hlo : -1 ≤ s.stackTop) (hhi : s.stackTop ≤ 125) :
    stackList (pushArray s) = [16, 32, 48] ++ stackList s ∧
    (pushArray s).execution = s.execution + 4 ∧
    (pushArray s).stackTop = s.stackTop + 3 ∧
    (pushArray s).errors = s.errors := by
  have hne : ¬s.execution = s.frameTop := by omega
  simp only [pushArray, if_neg hne, hm0]
  rw [show (List.range 3).reverse = [2, 1, 0] from rfl, data_foldl_eq]
  set y : EState :=
    { s with reads := s.reads ++ [s.execution] ++ [2, 1, 0].map (fun i => s.execution + 1 + i) }
    with hy
  have hvals : ([2, 1, 0].map
      (fun i => (({ s with
        execution := s.execution + 1
        reads := s.reads ++ [s.execution] } : EState).mem (s.execution + 1 + i) : Int))) =
      [48, 32, 16] := by
    show [(s.mem (s.execution + 1 + 2) : Int), (s.mem (s.execution + 1 + 1) : Int),
      (s.mem (s.execution + 1 + 0) : Int)] = [48, 32, 16]
    rw [show s.execution + 1 + 2 = s.execution + 3 from by omega,
      show s.execution + 1 + 1 = s.execution + 2 from by omega,
      show s.execution + 1 + 0 = s.execution + 1 from by omega,
      hm1, hm2, hm3]
    norm_num
  rw [hvals]
  have hys : ({ s with
      execution := s.execution + 1
      reads := s.reads ++ [s.execution] } : EState).stackTop = s.stackTop := rfl
  obtain ⟨pa, pb, pc⟩ := stackList_pushList [48, 32, 16]
    { s with
      execution := s.execution + 1
      reads := (s.reads ++ [s.execution]) ++ [2, 1, 0].map (fun i => s.execution + 1 + i) }
    (by simpa using hlo) (by simpa using by omega)
  set z := pushList [48, 32, 16]
    { s with
      execution := s.execution + 1
      reads := (s.reads ++ [s.execution]) ++ [2, 1, 0].map (fun i => s.execution + 1 + i) }
    with hz
  have hzex : z.execution = s.execution + 1 := by
    rw [hz, pushList_execution]
  have hzft : z.frameTop = s.frameTop := by
    rw [hz, pushList_frameTop]
  rw [pushArrayAdvance_ok 3 z (by rw [hzex, hzft]; omega)]
  refine ⟨?_, ?_, ?_, ?_⟩
  · show stackList { z with execution := z.execution + 3 } = _
    have : stackList { z with execution := z.execution + 3 } = stackList z := rfl
    rw [this, pa]
    have hsl : stackList
        { s with
          execution := s.execution + 1
          reads := (s.reads ++ [s.execution]) ++ [2, 1, 0].map (fun i => s.execution + 1 + i) } =
        stackList s := rfl
    rw [hsl]
    norm_num [toInt8]
  · show ({ z with execution := z.execution + 3 } : EState).execution = _
    rw [show ({ z with execution := z.execution + 3 } : EState).execution
      = z.execution + 3 from rfl, hzex]
  · show ({ z with execution := z.execution + 3 } : EState).stackTop = _
    rw [show ({ z with execution := z.execution + 3 } : EState).stackTop
      = z.stackTop from rfl, hz, pb]
    norm_num
  · show ({ z with execution := z.execution + 3 } : EState).errors = _
    rw [show ({ z with execution := z.execution + 3 } : EState).errors
      = z.errors from rfl, hz, pc]

/-- Claim C8, witness at the concrete frame `[3, 0x10, 0x20, 0x30]` from
offset 0 with an empty stack. -/
theorem c8_pushArray_concrete_witness :
    stackList (pushArray c8Frame) = [16, 32, 48] ++ stackList c8Frame ∧
    (pushArray c8Frame).execution = c8Frame.execution + 4 ∧
    (pushArray c8Frame).stackTop = c8Frame.stackTop + 3 ∧
    (pushArray c8Frame).errors = c8Frame.errors :=
  c8_pushArray_concrete c8Frame rfl rfl rfl rfl (by decide) (by decide) (by decide)

theorem dispatchLoop_cursorFixing (table : Nat → Option (EState → EState))
    (hfix : CursorFixing table) (n : Nat) :
    ∀ t : EState, t.frameTop = t.execution + n →
      ∃ sf : EState, dispatchLoop table n t = some sf ∧
        sf.execution = t.frameTop ∧ sf.frameTop = t.frameTop ∧
        sf.callerSequence = t.callerSequence ∧
        sf.dispatched = t.dispatched ++
          (List.range n).map (fun k => t.mem (t.execution + k)) := by
  induction n with
  | zero =>
    intro t h
    have he : t.execution = t.frameTop := by omega
    refine ⟨t, ?_, he, rfl, rfl, by simp⟩
    simp [dispatchLoop, he]
  | succ n ih =>
    intro t h
    have hne : ¬t.execution = t.frameTop := by omega
    have hstep : dispatchLoop table (n + 1) t =
        dispatchLoop table n (run table (t.mem t.execution)
          { t with
            execution := t.execution + 1
            reads := t.reads ++ [t.execution]
            dispatched := t.dispatched ++ [t.mem t.execution] }) := by
      simp [dispatchLoop, hne]
    set s1 : EState :=
      { t with
        execution := t.execution + 1
        reads := t.reads ++ [t.execution]
        dispatched := t.dispatched ++ [t.mem t.execution] }
    have hu : (run table (t.mem t.execution) s1).execution = t.execution + 1 ∧
        (run table (t.mem t.execution) s1).frameTop = t.frameTop ∧
        (run table (t.mem t.execution) s1).mem = t.mem ∧
        (run table (t.mem t.execution) s1).dispatched =
          t.dispatched ++ [t.mem t.execution] ∧
        (run table (t.mem t.execution) s1).callerSequence = t.callerSequence := by
      unfold run
      cases htab : table (t.mem t.execution) with
      | none => exact ⟨rfl, rfl, rfl, rfl, rfl⟩
      | some f =>
        obtain ⟨e1, e2, e3, e4, e5⟩ := hfix (t.mem t.execution) f htab s1
        exact ⟨by rw [e1], by rw [e2], by rw [e3], by rw [e4], by rw [e5]⟩
    obtain ⟨u1, u2, u3, u4, u5⟩ := hu
    obtain ⟨sf, hrun, f1, f2, f3, f4⟩ := ih (run table (t.mem t.execution) s1)
      (by rw [u2, u1]; omega)
    refine ⟨sf, ?_, ?_, ?_, ?_, ?_⟩
    · rw [hstep]; exact hrun
    · rw [f1, u2]
    · rw [f2, u2]
    · rw [f3, u5]
    · rw [f4, u4, u3, u1, List.append_assoc]
      congr 1
      rw [List.range_succ_eq_map, List.map_cons, List.map_map]
      simp only [List.singleton_append, Nat.add_zero]
      congr 1
      apply List.map_congr_left
      intro k _
      show t.mem (t.execution + 1 + k) = t.mem (t.execution + (k + 1))
      congr 1
      omega

/-- Claim C7, amended: `frameReceived` installs the cursor at the frame
start, `frameTop` at the frame's exclusive end, and records the caller
sequence id; under the precondition that no invoked function moves the
cursor (or touches the frame bounds, the frame memory and the
bookkeeping fields), the dispatch loop terminates — frame-length fuel
suffices — exactly when the cursor equals `frameTop`, having dispatched
the frame's bytes as function ids in order. -/
theorem c7_frameReceived_dispatch (table : Nat → Option (EState → EState))
    (hfix : CursorFixing table) (seq flen : Nat) (s : EState) :
    ∃ sf : EState, frameReceived table flen seq flen s = some sf ∧
      sf.execution = flen ∧ sf.frameTop = flen ∧ sf.callerSequence = seq ∧
      sf.dispatched = s.dispatched ++ (List.range flen).map (fun k => s.mem k) := by
  unfold frameReceived
  obtain ⟨sf, h0, h1, h2, h3, h4⟩ := dispatchLoop_cursorFixing table hfix flen
    { s with execution := 0, callerSequence := seq, frameTop := flen } (by simp)
  exact ⟨sf, h0, by simpa using h1, by simpa using h2, by simpa using h3,
    by simpa using h4⟩

/-- Claim C7, amended, witness: a table binding id 0 to a function that
does nothing dispatches the 2-byte frame `[0, 0]` to completion with the
two opcodes dispatched in order. -/
theorem c7_frameReceived_dispatch_witness :
    ∃ sf : EState, frameReceived idTable 2 9 2 initES = some sf ∧
      sf.execution = 2 ∧ sf.frameTop = 2 ∧ sf.callerSequence = 9 ∧
      sf.dispatched = initES.dispatched ++ (List.range 2).map (fun k => initES.mem k) :=
  c7_frameReceived_dispatch idTable
    (by
      intro i f hf s
      unfold idTable at hf
      by_cases hi : i = 0
      · rw [if_pos hi] at hf
        cases hf
        exact ⟨rfl, rfl, rfl, rfl, rfl⟩
      · rw [if_neg hi] at hf
        cases hf)
    9 2 initES

theorem rewind_dispatchLoop_none (n : Nat) :
    ∀ t : EState, t.execution = 0 → t.frameTop = 1 → t.mem 0 = 0 →
      dispatchLoop rewindTable n t = none := by
  induction n with
  | zero =>
    intro t h1 h2 h3
    simp [dispatchLoop, h1, h2]
  | succ n ih =>
    intro t h1 h2 h3
    have hne : ¬t.execution = t.frameTop := by omega
    have hstep : dispatchLoop rewindTable (n + 1) t =
        dispatchLoop rewindTable n (run rewindTable (t.mem t.execution)
          { t with
            execution := t.execution + 1
            reads := t.reads ++ [t.execution]
            dispatched := t.dispatched ++ [t.mem t.execution] }) := by
      simp [dispatchLoop, hne]
    rw [hstep, h1, h3]
    exact ih _ rfl h2 h3

/-- Claim C7, counterexample: bind function id 0 to a function that
rewinds the cursor to the frame start — a function that never advances
the cursor past `frameTop`, so it satisfies the claim's stated
precondition — and dispatch the 1-byte frame `[0]`: the loop never
terminates, whatever the fuel, because the cursor never equals
`frameTop`. -/
theorem c7_rewind_never_terminates :
    ¬∃ (n : Nat) (sf : EState), frameReceived rewindTable n 0 1 initES = some sf := by
  rintro ⟨n, sf, h⟩
  unfold frameReceived at h
  rw [rewind_dispatchLoop_none n _ rfl rfl rfl] at h
  cases h

theorem stackList_length (s : EState) : (stackList s).length = (s.stackTop + 1).toNat := by
  simp [stackList]

theorem stackList_empty {s : EState} (h : s.stackTop = -1) : stackList s = [] := by
  simp [stackList, h]

theorem toByte_toInt8 (n : Int) : toByte (toInt8 n) = n % 256 := by
  unfold toByte toInt8; omega

theorem toInt8_small {n : Int} (h1 : 0 ≤ n) (h2 : n ≤ 127) : toInt8 n = n := by
  unfold toInt8; omega

theorem toByte_small {n : Int} (h1 : 0 ≤ n) (h2 : n ≤ 255) : toByte n = n := by
  unfold toByte; omega

theorem pop_spec (s : EState) (h : 0 ≤ s.stackTop) :
    stackList s = (pop s).1 :: stackList (pop s).2 ∧
    (pop s).2.stackTop = s.stackTop - 1 ∧
    (pop s).2.errors = s.errors := by
  have hne : ¬s.stackTop = -1 := by omega
  rw [pop_ok hne]
  refine ⟨?_, rfl, rfl⟩
  have hl : stackList { s with stackTop := s.stackTop - 1 } =
      (List.range s.stackTop.toNat).reverse.map s.stackCells := by
    unfold stackList
    rw [show (({ s with stackTop := s.stackTop - 1 } : EState).stackTop + 1).toNat
      = s.stackTop.toNat from by show ((s.stackTop - 1) + 1).toNat = _; omega]
  rw [hl]
  unfold stackList
  rw [show (s.stackTop + 1).toNat = s.stackTop.toNat + 1 from by omega,
    List.range_succ, List.reverse_append, List.reverse_singleton,
    List.singleton_append, List.map_cons]

theorem popN_spec (n : Nat) :
    ∀ s : EState, (n : Int) ≤ s.stackTop + 1 →
      (popN n s).1 = (stackList s).take n ∧
      stackList (popN n s).2 = (stackList s).drop n ∧
      (popN n s).2.stackTop = s.stackTop - n ∧
      (popN n s).2.errors = s.errors ∧
      (popN n s).2.callerSequence = s.callerSequence ∧
      (popN n s).2.sentFrames = s.sentFrames := by
  induction n with
  | zero => intro s _; simp [popN]
  | succ n ih =>
    intro s h
    have h0 : 0 ≤ s.stackTop := by push_cast at h; omega
    obtain ⟨e1, e2, e3⟩ := pop_spec s h0
    have hstep1 : (popN (n + 1) s).1 = (pop s).1 :: (popN n (pop s).2).1 := rfl
    have hstep2 : (popN (n + 1) s).2 = (popN n (pop s).2).2 := rfl
    obtain ⟨i1, i2, i3, i4, i5, i6⟩ := ih (pop s).2 (by rw [e2]; push_cast at h ⊢; omega)
    rw [hstep1, hstep2, e1]
    refine ⟨?_, ?_, ?_, ?_, ?_, ?_⟩
    · rw [List.take_succ_cons, i1]
    · rw [List.drop_succ_cons, i2]
    · rw [i3, e2]; push_cast; ring
    · rw [i4, e3]
    · rw [i5, pop_callerSequence]
    · rw [i6, pop_sentFrames]

theorem sendResponseCount_sentFrames (X : EState) (c : Int) (vals : List Int)
    (hstack : stackList X = c :: vals) (hc0 : 0 ≤ c) (hc1 : c ≤ 127)
    (hlen : (vals.length : Int) = c) :
    (sendResponseCount X).sentFrames = X.sentFrames ++
      [FUNCTIONS_RESPONSE :: (X.callerSequence : Int) :: c :: vals.map toByte] := by
  have hlenX : (stackList X).length = vals.length + 1 := by rw [hstack]; rfl
  have htopn : (X.stackTop + 1).toNat = vals.length + 1 := by
    rw [← stackList_length, hlenX]
  have htop0 : 0 ≤ X.stackTop := by omega
  obtain ⟨e1, e2, e3⟩ := pop_spec X htop0
  have hv : (pop X).1 = c := by
    have := e1.symm.trans hstack
    exact (List.cons.injEq _ _ _ _ ▸ this).1
  have hrest : stackList (pop X).2 = vals := by
    have := e1.symm.trans hstack
    exact (List.cons.injEq _ _ _ _ ▸ this).2
  obtain ⟨i1, i2, i3, i4, i5, i6⟩ := popN_spec c.toNat (pop X).2
    (by rw [e2]; omega)
  have hvals : (popN c.toNat (pop X).2).1 = vals := by
    rw [i1, hrest]
    have : vals.length ≤ c.toNat := by omega
    exact List.take_of_length_le this
  show (sendFrame _ _).sentFrames = _
  rw [show (sendFrame ((FUNCTIONS_RESPONSE :: ((popN (pop X).1.toNat (pop X).2).2.callerSequence : Int)
      :: toByte (pop X).1 :: (popN (pop X).1.toNat (pop X).2).1.map toByte).take
        (toByte (3 + (pop X).1)).toNat) (popN (pop X).1.toNat (pop X).2).2).sentFrames =
    (popN (pop X).1.toNat (pop X).2).2.sentFrames ++
      [(FUNCTIONS_RESPONSE :: ((popN (pop X).1.toNat (pop X).2).2.callerSequence : Int)
        :: toByte (pop X).1 :: (popN (pop X).1.toNat (pop X).2).1.map toByte).take
          (toByte (3 + (pop X).1)).toNat] from rfl]
  rw [hv, hvals, i6, pop_sentFrames, i5, pop_callerSequence]
  congr 2
  rw [toByte_small hc0 (by omega), toByte_small (by omega) (by omega)]
  have hbuf : (FUNCTIONS_RESPONSE :: (X.callerSequence : Int) :: c ::
      vals.map toByte).length = 3 + c.toNat := by
    simp only [List.length_cons, List.length_map]
    omega
  have hsz : (3 + c).toNat = 3 + c.toNat := by omega
  rw [hsz, ← hbuf, List.take_length]

theorem qi_foldl_eq (L : List (List Nat × Nat)) :
    ∀ s : EState,
      L.foldl (fun a e => push (e.2 : Int)
        ((List.range 5).reverse.foldl (fun a2 k => push (e.1.getD k 0 : Int) a2) a)) s =
      pushList (qiBytes L) s := by
  induction L with
  | nil => intro s; rfl
  | cons e L ih =>
    intro s
    rw [List.foldl_cons, ih]
    have hinner : (List.range 5).reverse.foldl (fun a2 k => push (e.1.getD k 0 : Int) a2) s =
        pushList ((List.range 5).reverse.map (fun k => (e.1.getD k 0 : Int))) s := by
      rw [pushList, List.foldl_map]
    rw [hinner]
    show pushList (qiBytes L)
      (pushList [(e.2 : Int)]
        (pushList ((List.range 5).reverse.map (fun k => (e.1.getD k 0 : Int))) s)) = _
    rw [← pushList_append, ← pushList_append]
    congr 1

theorem queryInterface_eq (s : EState) :
    queryInterface s =
      sendResponseCount
        (pushList (qiBytes s.interfaces ++ [((6 * s.interfaces.length : Nat) : Int)]) s) := by
  unfold queryInterface
  rw [qi_foldl_eq, pushList_append]
  rfl

theorem qiBytes_length (L : List (List Nat × Nat)) : (qiBytes L).length = 6 * L.length := by
  induction L with
  | nil => rfl
  | cons e L ih =>
    show (qiEntryBytes e ++ qiBytes L).length = 6 * (L.length + 1)
    rw [List.length_append, ih]
    show 6 + 6 * L.length = 6 * (L.length + 1)
    ring

theorem qiPayload_eq (L : List (List Nat × Nat)) :
    ((qiBytes L).map (fun x => x % 256)).reverse = qiPayload L := by
  induction L with
  | nil => rfl
  | cons e L ih =>
    show ((qiEntryBytes e ++ qiBytes L).map (fun x => x % 256)).reverse = _
    rw [List.map_append, List.reverse_append, ih]
    show _ = (((e :: L).reverse.map (fun e => ((e.2 : Int) % 256) ::
      (List.range 5).map (fun k => ((e.1.getD k 0 : Int)) % 256))).flatten)
    rw [List.reverse_cons, List.map_append, List.flatten_append]
    congr 1

/-- Claim C4, amended: after binding interfaces `{"AAAA1": start=4}` and
`{"BBBB1": start=6}`, invoking `queryInterface` with an empty parameter
stack emits exactly one response frame whose declared payload-length byte
is 12 and whose payload, read in order, is 6, the five characters of
"BBBB1", 4, then the five characters of "AAAA1": in general the payload
lists the registered interfaces in reverse registration order, each as
its start index followed by its 5 id characters in forward order, with
declared length (5 + 1) * entryCount. -/
theorem c4_queryInterface_payload (s : EState)
    (h0 : s.stackTop = -1) (hc : 6 * s.interfaces.length ≤ 127) :
    (queryInterface s).sentFrames = s.sentFrames ++
      [FUNCTIONS_RESPONSE :: (s.callerSequence : Int) ::
        ((6 * s.interfaces.length : Nat) : Int) :: qiPayload s.interfaces] := by
  rw [queryInterface_eq]
  have hB := qiBytes_length s.interfaces
  have hlist : (qiBytes s.interfaces ++ [((6 * s.interfaces.length : Nat) : Int)]).length =
      6 * s.interfaces.length + 1 := by
    rw [List.length_append, hB]; rfl
  obtain ⟨sa, sb, sc⟩ := stackList_pushList
    (qiBytes s.interfaces ++ [((6 * s.interfaces.length : Nat) : Int)]) s
    (by omega) (by rw [hlist, h0]; push_cast; omega)
  set P := pushList (qiBytes s.interfaces ++ [((6 * s.interfaces.length : Nat) : Int)]) s
    with hP
  have hsl : stackList P = ((6 * s.interfaces.length : Nat) : Int) ::
      ((qiBytes s.interfaces).map toInt8).reverse := by
    rw [sa, stackList_empty h0, List.map_append, List.reverse_append]
    show (([((6 * s.interfaces.length : Nat) : Int)].map toInt8).reverse ++
      ((qiBytes s.interfaces).map toInt8).reverse) ++ [] = _
    rw [List.append_nil]
    show [toInt8 ((6 * s.interfaces.length : Nat) : Int)] ++ _ = _
    rw [toInt8_small (by positivity) (by push_cast; omega)]
    rfl
  have hvlen : ((((qiBytes s.interfaces).map toInt8).reverse).length : Int) =
      ((6 * s.interfaces.length : Nat) : Int) := by
    rw [List.length_reverse, List.length_map, hB]
  rw [sendResponseCount_sentFrames P ((6 * s.interfaces.length : Nat) : Int)
    (((qiBytes s.interfaces).map toInt8).reverse) hsl (by positivity)
    (by push_cast; omega) hvlen]
  rw [hP, pushList_sentFrames, pushList_callerSequence]
  congr 3
  rw [← List.map_reverse, List.map_map]
  rw [show (toByte ∘ toInt8) = (fun x => x % 256) from funext toByte_toInt8]
  rw [List.map_reverse, qiPayload_eq]

set_option maxHeartbeats 1000000 in
/-- Claim C4, counterexample: with the registry `{"AAAA1": 4}` then
`{"BBBB1": 6}` and an empty stack, the single response frame
`queryInterface` emits carries the payload
`6, 'B', 'B', 'B', 'B', '1', 4, 'A', 'A', 'A', 'A', '1'` (declared length
byte 12 at offset 2), not the payload
`'A', 'A', 'A', 'A', '1', 4, 'B', 'B', 'B', 'B', '1', 6` the claim
states. -/
theorem c4_payload_order_counterexample :
    (queryInterface c4State).sentFrames =
      [FUNCTIONS_RESPONSE :: (0 : Int) :: (12 : Int) ::
        [6, 66, 66, 66, 66, 49, 4, 65, 65, 65, 65, 49]] ∧
    (queryInterface c4State).sentFrames ≠
      [FUNCTIONS_RESPONSE :: (0 : Int) :: (12 : Int) ::
        [65, 65, 65, 65, 49, 4, 66, 66, 66, 66, 49, 6]] := by decide

/-- Claim C4, amended, witness: the concrete two-interface registry
`{"AAAA1": 4}`, `{"BBBB1": 6}`. -/
theorem c4_queryInterface_payload_witness :
    (queryInterface c4State).sentFrames = c4State.sentFrames ++
      [FUNCTIONS_RESPONSE :: (c4State.callerSequence : Int) ::
        ((6 * c4State.interfaces.length : Nat) : Int) :: qiPayload c4State.interfaces] :=
  c4_queryInterface_payload c4State rfl (by decide)

end Reflecta
